import Mathlib

/-!
Shallow embedding of the `cemakpolat/go-rest-mqtt` monitoring service
(`src/main.go`): a Gin HTTP CRUD API over a MongoDB collection of
`Measurement` documents, plus an MQTT subscriber that decodes JSON payloads
and inserts them.

Modelling conventions:
- A MongoDB `primitive.ObjectID` is a 12-byte value; we model it as a `Nat`
  (its numeric value), with `0` standing for the zero `NilObjectID` that the
  `bson:"_id,omitempty"` tag omits on marshalling.
- `float64` CPU/RAM percentages are only ever copied, never computed with, so
  they are modelled as `ℚ`; `time.Time` is modelled as a `Nat` instant.
- The environment `Env` fixes the outcome of the external effects a single
  handler invocation performs: whether `mongo.Connect`, `client.Ping`,
  `client.Disconnect` and the collection operation succeed, the current
  `time.Now()`, and the `ObjectID` the driver would generate for an
  `_id`-less insert.
- A handler returns an `HOut`: its HTTP outcome (or `fatal` for `log.Fatal`),
  the collection state after the call, and the trace of connection
  lifecycle events it performed.
-/

/-- A stored measurement document, after `Measurement` in the Go source:
`ID primitive.ObjectID` (bson `_id,omitempty`), `Timestamp time.Time`,
`CPU float64`, `RAM float64`. -/
structure Measurement where
  id : Nat
  timestamp : Nat
  cpu : ℚ
  ram : ℚ
deriving DecidableEq, Repr

/-- Connection lifecycle events of the MongoDB client, used to express the
per-operation connect/teardown behaviour. -/
inductive ConnEvent where
  | connect
  | disconnect
deriving DecidableEq, Repr

/-- Response bodies the handlers produce: `c.Status` (empty), a
`gin.H` error message, a single document, or the marshalled slice of the
list endpoint (`none` is Go's nil slice). -/
inductive RespBody where
  | empty
  | errMsg (s : String)
  | doc (m : Measurement)
  | slice (xs : Option (List Measurement))
deriving DecidableEq, Repr

/-- Outcome of one HTTP handler invocation: either an HTTP response with a
status code and body, or process termination via `log.Fatal`. -/
inductive HResult where
  | response (status : Nat) (body : RespBody)
  | fatal
deriving DecidableEq, Repr

/-- Outcomes of the external effects during one handler invocation. -/
structure Env where
  connectOk : Bool
  pingOk : Bool
  opOk : Bool
  disconnectOk : Bool
  now : Nat
  freshId : Nat
deriving DecidableEq, Repr

/-- Result of one handler invocation: HTTP outcome, collection state after
the call, and trace of connection events. -/
structure HOut where
  res : HResult
  st : List Measurement
  trace : List ConnEvent
deriving DecidableEq, Repr

/-- Hex digits accepted by `encoding/hex.DecodeString`, which
`primitive.ObjectIDFromHex` delegates to. -/
def isHexChar (c : Char) : Bool :=
  (('0' ≤ c) && (c ≤ '9')) || (('a' ≤ c) && (c ≤ 'f')) || (('A' ≤ c) && (c ≤ 'F'))

/-- Numeric value of a hex digit (lower- or upper-case). -/
def hexDigitVal (c : Char) : Nat :=
  if ('0' ≤ c) && (c ≤ '9') then c.toNat - 48
  else if ('a' ≤ c) && (c ≤ 'f') then c.toNat - 87
  else c.toNat - 55

/-- Embeds `primitive.ObjectIDFromHex`: succeeds exactly on 24-character hex
strings, producing the numeric value of the 12 decoded bytes. -/
def objectIDFromHex (s : String) : Option Nat :=
  if s.length = 24 ∧ s.data.all isHexChar then
    some (s.data.foldl (fun acc c => 16 * acc + hexDigitVal c) 0)
  else none

/-- Embeds `getMongoCollection`: `mongo.Connect` then `client.Ping`; returns
whether a collection handle was obtained, and the connection events emitted.
The function never disconnects the client it created. -/
def getMongoCollection (env : Env) : Option Unit × List ConnEvent :=
  if !env.connectOk then (none, [])
  else if !env.pingOk then (none, [.connect])
  else (some (), [.connect])

/-- The `_id` a document receives on `InsertOne`: with the
`bson:"_id,omitempty"` tag, a zero `ObjectID` is omitted from the marshalled
document and the driver generates a fresh one; a nonzero `ObjectID` is sent
as-is. -/
def effectiveId (m : Measurement) (freshId : Nat) : Nat :=
  if m.id = 0 then freshId else m.id

/-- Embeds `collection.InsertOne`: fails on I/O failure or a duplicate `_id`;
otherwise appends the document with its effective `_id`. -/
def insertOne (opOk : Bool) (st : List Measurement) (m : Measurement)
    (freshId : Nat) : Except Unit (List Measurement) :=
  if !opOk then .error ()
  else
    let newId := effectiveId m freshId
    if st.any (fun d => d.id = newId) then .error ()
    else .ok (st ++ [{ m with id := newId }])

/-- Embeds `collection.FindOne(..., bson.M _id).Decode`: `error` is an I/O
failure, `ok none` is `mongo.ErrNoDocuments`, `ok (some m)` a found
document. -/
def findOne (opOk : Bool) (st : List Measurement) (oid : Nat) :
    Except Unit (Option Measurement) :=
  if !opOk then .error ()
  else .ok (st.find? (fun d => d.id = oid))

/-- Replace the first document whose `_id` is `oid` with `m`, keeping that
`_id` (MongoDB keeps the matched document's `_id` when the replacement omits
it). -/
def replaceFirst (oid : Nat) (m : Measurement) : List Measurement → List Measurement
  | [] => []
  | d :: ds =>
    if d.id = oid then { m with id := oid } :: ds
    else d :: replaceFirst oid m ds

/-- Embeds `collection.ReplaceOne` (no upsert): fails on I/O failure, or when
a matched document's immutable `_id` would change; an absent `oid` matches
nothing and leaves the collection unchanged. -/
def replaceOne (opOk : Bool) (st : List Measurement) (oid : Nat)
    (m : Measurement) : Except Unit (List Measurement) :=
  if !opOk then .error ()
  else if st.any (fun d => d.id = oid) && !(m.id = 0 || m.id = oid) then
    .error ()
  else .ok (replaceFirst oid m st)

/-- Delete the first document whose `_id` is `oid`. -/
def deleteFirst (oid : Nat) : List Measurement → List Measurement
  | [] => []
  | d :: ds => if d.id = oid then ds else d :: deleteFirst oid ds

/-- Embeds `collection.DeleteOne`: fails on I/O failure; an absent `oid`
deletes nothing and is not an error. -/
def deleteOne (opOk : Bool) (st : List Measurement) (oid : Nat) :
    Except Unit (List Measurement) :=
  if !opOk then .error ()
  else .ok (deleteFirst oid st)

/-- A Go slice value (`none` is the nil slice) extended by one element, as
`append` behaves in the driver's `Cursor.All` loop. -/
def goAppend (s : Option (List Measurement)) (x : Measurement) :
    Option (List Measurement) :=
  match s with
  | none => some [x]
  | some xs => some (xs ++ [x])

/-- Embeds `cur.All(ctx, &measurements)` starting from the handler's
`var measurements []Measurement` nil slice: appends each document in turn,
so zero documents leave the slice nil. -/
def curAll (docs : List Measurement) : Option (List Measurement) :=
  docs.foldl goAppend none

/-- JSON values relevant to the list endpoint's body. -/
inductive JsonVal where
  | null
  | arrOf (xs : List Measurement)
deriving DecidableEq, Repr

/-- Embeds `encoding/json` marshalling of a `[]Measurement` value as gin's
`c.JSON` performs it: a nil slice marshals to JSON `null`, any non-nil slice
to a JSON array. -/
def marshalSlice : Option (List Measurement) → JsonVal
  | none => .null
  | some xs => .arrOf xs

/-- Embeds `getMeasurements` (GET /measurements): inline `mongo.Connect` with
a deferred `client.Disconnect` (whose failure is `log.Fatal`), `Find` over
the whole collection, `cur.All` into a nil slice, then `c.JSON 200`. -/
def getMeasurements (env : Env) (st : List Measurement) : HOut :=
  if !env.connectOk then
    ⟨.response 500 (.errMsg "Failed to connect to MongoDB"), st, []⟩
  else if !env.opOk then
    if !env.disconnectOk then ⟨.fatal, st, [.connect]⟩
    else ⟨.response 500 (.errMsg "Failed to retrieve measurements"), st,
      [.connect, .disconnect]⟩
  else
    if !env.disconnectOk then ⟨.fatal, st, [.connect]⟩
    else ⟨.response 200 (.slice (curAll st)), st, [.connect, .disconnect]⟩

/-- Embeds `createMeasurement` (POST /measurements): `ShouldBindJSON`
(`none` is a malformed body, giving 400), `getMongoCollection` (whose error
is `log.Fatal`), then `InsertOne` of the bound document unchanged (500 on
error, 201 on success). -/
def createMeasurement (env : Env) (body : Option Measurement)
    (st : List Measurement) : HOut :=
  match body with
  | none => ⟨.response 400 (.errMsg "bind error"), st, []⟩
  | some m =>
    match getMongoCollection env with
    | (none, tr) => ⟨.fatal, st, tr⟩
    | (some _, tr) =>
      match insertOne env.opOk st m env.freshId with
      | .error _ => ⟨.response 500 (.errMsg "insert error"), st, tr⟩
      | .ok st2 => ⟨.response 201 .empty, st2, tr⟩

/-- Embeds `getMeasurement` (GET /measurements/id): `ObjectIDFromHex`
(400 on failure), `getMongoCollection` (`log.Fatal` on error), `FindOne`
(404 on `ErrNoDocuments`, 500 on other error, 200 with the document). -/
def getMeasurement (env : Env) (idStr : String) (st : List Measurement) : HOut :=
  match objectIDFromHex idStr with
  | none => ⟨.response 400 (.errMsg "Invalid ID"), st, []⟩
  | some oid =>
    match getMongoCollection env with
    | (none, tr) => ⟨.fatal, st, tr⟩
    | (some _, tr) =>
      match findOne env.opOk st oid with
      | .error _ => ⟨.response 500 (.errMsg "find error"), st, tr⟩
      | .ok none => ⟨.response 404 .empty, st, tr⟩
      | .ok (some m) => ⟨.response 200 (.doc m), st, tr⟩

/-- Embeds `updateMeasurement` (PUT /measurements/id): `ObjectIDFromHex`
(400), `getMongoCollection` (`log.Fatal` on error), `ShouldBindJSON` (400),
then `ReplaceOne` (500 on error, otherwise 200 whether or not anything
matched). -/
def updateMeasurement (env : Env) (idStr : String) (body : Option Measurement)
    (st : List Measurement) : HOut :=
  match objectIDFromHex idStr with
  | none => ⟨.response 400 (.errMsg "Invalid ID"), st, []⟩
  | some oid =>
    match getMongoCollection env with
    | (none, tr) => ⟨.fatal, st, tr⟩
    | (some _, tr) =>
      match body with
      | none => ⟨.response 400 (.errMsg "bind error"), st, tr⟩
      | some m =>
        match replaceOne env.opOk st oid m with
        | .error _ => ⟨.response 500 (.errMsg "replace error"), st, tr⟩
        | .ok st2 => ⟨.response 200 .empty, st2, tr⟩

/-- Embeds `deleteMeasurement` (DELETE /measurements/id): `ObjectIDFromHex`
(400), `getMongoCollection` (`log.Fatal` on error), then `DeleteOne` (500 on
error, otherwise 200 whether or not anything matched). -/
def deleteMeasurement (env : Env) (idStr : String) (st : List Measurement) : HOut :=
  match objectIDFromHex idStr with
  | none => ⟨.response 400 (.errMsg "Invalid ID"), st, []⟩
  | some oid =>
    match getMongoCollection env with
    | (none, tr) => ⟨.fatal, st, tr⟩
    | (some _, tr) =>
      match deleteOne env.opOk st oid with
      | .error _ => ⟨.response 500 (.errMsg "delete error"), st, tr⟩
      | .ok st2 => ⟨.response 200 .empty, st2, tr⟩

/-- Result of the MQTT `messageHandler`: collection state afterwards, the
connection events performed, and whether `log.Fatal` fired (inside
`storeMQTTMeasurement` when `getMongoCollection` fails). -/
structure MHOut where
  st : List Measurement
  trace : List ConnEvent
  fatal : Bool
deriving DecidableEq, Repr

/-- Embeds `messageHandler` plus `storeMQTTMeasurement`: `json.Unmarshal` of
the payload (`none` is a parse error, logged and dropped), overwrite
`Timestamp` with `time.Now()`, `getMongoCollection` (`log.Fatal` on error),
`InsertOne` (an error is logged and the message dropped). -/
def messageHandler (env : Env) (payload : Option Measurement)
    (st : List Measurement) : MHOut :=
  match payload with
  | none => ⟨st, [], false⟩
  | some m0 =>
    let m := { m0 with timestamp := env.now }
    match getMongoCollection env with
    | (none, tr) => ⟨st, tr, true⟩
    | (some _, tr) =>
      match insertOne env.opOk st m env.freshId with
      | .error _ => ⟨st, tr, false⟩
      | .ok st2 => ⟨st2, tr, false⟩

/-- One delivered MQTT message: its decoded payload (`none` for a payload
`json.Unmarshal` rejects) and the environment at receipt. -/
structure MqttMsg where
  payload : Option Measurement
  env : Env
deriving DecidableEq, Repr

/-- The subscriber loop: the paho client invokes `messageHandler` on each
delivered message in turn; only `log.Fatal` stops the process. -/
def runSubscriber (msgs : List MqttMsg) (st : List Measurement) :
    List Measurement :=
  match msgs with
  | [] => st
  | msg :: rest =>
    let out := messageHandler msg.env msg.payload st
    if out.fatal then out.st else runSubscriber rest out.st

/-- The document the message-driven path persists for decoded payload `m`
received at time `now`: the payload's cpu and ram, the receive time as
timestamp, and the effective insert id. -/
def mqttStoredDoc (m : Measurement) (freshId now : Nat) : Measurement :=
  { id := effectiveId m freshId, timestamp := now, cpu := m.cpu, ram := m.ram }

/-- An environment in which every external effect succeeds. -/
def okEnv : Env :=
  { connectOk := true, pingOk := true, opOk := true, disconnectOk := true,
    now := 100, freshId := 99 }

/-- An environment in which `mongo.Connect` fails (store unreachable). -/
def connFailEnv : Env :=
  { okEnv with connectOk := false }

/-- A sample request body carrying no id (the zero ObjectID). -/
def sampleBody : Measurement :=
  { id := 0, timestamp := 7, cpu := 10, ram := 20 }

/-- From a false `any` over `_id` equality, no member has that `_id`. -/
theorem mem_id_ne_of_any_eq_false {st : List Measurement} {oid : Nat}
    (h : (st.any fun d => d.id = oid) = false) :
    ∀ d ∈ st, d.id ≠ oid := by
  intro d hd he
  have : (st.any fun d => d.id = oid) = true :=
    List.any_eq_true.mpr ⟨d, hd, by simp [he]⟩
  simp [this] at h

/-- `find?` over `_id` equality returns nothing when no member has the id. -/
theorem find?_id_eq_none {st : List Measurement} {oid : Nat}
    (h : ∀ d ∈ st, d.id ≠ oid) :
    (st.find? fun d => d.id = oid) = none := by
  induction st with
  | nil => rfl
  | cons d ds ih =>
    have hd : d.id ≠ oid := h d (by simp)
    simp [List.find?, hd, ih fun x hx => h x (by simp [hx])]

/-- Replacing by an `_id` held by no member leaves the collection unchanged. -/
theorem replaceFirst_eq_self {st : List Measurement} {oid : Nat} (m : Measurement)
    (h : ∀ d ∈ st, d.id ≠ oid) :
    replaceFirst oid m st = st := by
  induction st with
  | nil => rfl
  | cons d ds ih =>
    have hd : d.id ≠ oid := h d (by simp)
    simp [replaceFirst, hd, ih fun x hx => h x (by simp [hx])]

/-- Deleting by an `_id` held by no member leaves the collection unchanged. -/
theorem deleteFirst_eq_self {st : List Measurement} {oid : Nat}
    (h : ∀ d ∈ st, d.id ≠ oid) :
    deleteFirst oid st = st := by
  induction st with
  | nil => rfl
  | cons d ds ih =>
    have hd : d.id ≠ oid := h d (by simp)
    simp [deleteFirst, hd, ih fun x hx => h x (by simp [hx])]

/-- Folding `goAppend` from a non-nil slice appends all the elements. -/
theorem foldl_goAppend_some (xs : List Measurement) (acc : List Measurement) :
    xs.foldl goAppend (some acc) = some (acc ++ xs) := by
  induction xs generalizing acc with
  | nil => simp
  | cons x xs ih => simp [goAppend, ih]

/-- `cur.All` on at least one document produces a non-nil slice holding
exactly the documents. -/
theorem curAll_cons (x : Measurement) (xs : List Measurement) :
    curAll (x :: xs) = some (x :: xs) := by
  simp [curAll, goAppend, foldl_goAppend_some]

/-- C1, counterexample: with the store unreachable, the POST handler's store
error (`getMongoCollection` failing) is not converted to an HTTP status code
but terminates the process via `log.Fatal` — contradicting the claim that no
handler-local store error terminates the process. -/
theorem c1_counterexample :
    (createMeasurement connFailEnv (some sampleBody) []).res = HResult.fatal := by
  rfl

/-- C1 (amended): once a collection handle is obtained — connect and ping
succeed, and for the list handler the deferred disconnect succeeds — every
handler converts any remaining store error to an HTTP status code and never
terminates the process; but a connect/ping failure in `getMongoCollection`
inside the create/get-by-id/update/delete handlers is `log.Fatal`. -/
theorem c1_amended_no_fatal_after_connection (env : Env)
    (hc : env.connectOk = true) (hp : env.pingOk = true)
    (hd : env.disconnectOk = true) (idStr : String) (body : Option Measurement)
    (st : List Measurement) :
    (getMeasurements env st).res ≠ HResult.fatal ∧
    (createMeasurement env body st).res ≠ HResult.fatal ∧
    (getMeasurement env idStr st).res ≠ HResult.fatal ∧
    (updateMeasurement env idStr body st).res ≠ HResult.fatal ∧
    (deleteMeasurement env idStr st).res ≠ HResult.fatal := by
  have hcol : getMongoCollection env = (some (), [ConnEvent.connect]) := by
    simp [getMongoCollection, hc, hp]
  refine ⟨?_, ?_, ?_, ?_, ?_⟩
  · rcases hop : env.opOk with _ | _ <;> simp [getMeasurements, hc, hd, hop]
  · simp only [createMeasurement, hcol]
    cases body with
    | none => simp
    | some m =>
      rcases hins : insertOne env.opOk st m env.freshId with e | st2 <;> simp [hins]
  · simp only [getMeasurement, hcol]
    cases hhex : objectIDFromHex idStr with
    | none => simp
    | some oid =>
      rcases hfind : findOne env.opOk st oid with e | mo
      · simp [hfind]
      · cases mo <;> simp [hfind]
  · simp only [updateMeasurement, hcol]
    cases hhex : objectIDFromHex idStr with
    | none => simp
    | some oid =>
      cases body with
      | none => simp
      | some m =>
        rcases hrep : replaceOne env.opOk st oid m with e | st2 <;> simp [hrep]
  · simp only [deleteMeasurement, hcol]
    cases hhex : objectIDFromHex idStr with
    | none => simp
    | some oid =>
      rcases hdel : deleteOne env.opOk st oid with e | st2 <;> simp [hdel]

/-- C1 witness: the amended theorem applied in the all-success environment. -/
theorem c1_amended_no_fatal_after_connection_witness :
    (getMeasurements okEnv []).res ≠ HResult.fatal ∧
    (createMeasurement okEnv none []).res ≠ HResult.fatal ∧
    (getMeasurement okEnv "x" []).res ≠ HResult.fatal ∧
    (updateMeasurement okEnv "x" none []).res ≠ HResult.fatal ∧
    (deleteMeasurement okEnv "x" []).res ≠ HResult.fatal :=
  c1_amended_no_fatal_after_connection okEnv rfl rfl rfl "x" none []

/-- C2, counterexample: the id field of a POST body is not ignored — two
create requests identical except for a nonzero body id store documents whose
ids are exactly the body ids (5 and 6), not the store-generated id 99. -/
theorem c2_counterexample :
    ((createMeasurement okEnv (some { sampleBody with id := 5 }) []).st.map
      Measurement.id = [5]) ∧
    ((createMeasurement okEnv (some { sampleBody with id := 6 }) []).st.map
      Measurement.id = [6]) ∧
    okEnv.freshId = 99 :=
  ⟨rfl, rfl, rfl⟩

/-- C2 (amended): the POST body's id field is bound and used: the stored
document's `_id` is the body's id whenever it is nonzero, and is assigned by
the store (the driver-generated fresh id) only when the body's id is absent
or the zero ObjectID. -/
theorem c2_amended_body_id_used (env : Env) (m : Measurement)
    (st : List Measurement) (hc : env.connectOk = true)
    (hp : env.pingOk = true) (ho : env.opOk = true)
    (hfresh : (st.any fun d => d.id = effectiveId m env.freshId) = false) :
    (createMeasurement env (some m) st).res = HResult.response 201 RespBody.empty ∧
    (createMeasurement env (some m) st).st
      = st ++ [{ m with id := effectiveId m env.freshId }] ∧
    (m.id ≠ 0 → effectiveId m env.freshId = m.id) ∧
    (m.id = 0 → effectiveId m env.freshId = env.freshId) := by
  have hcol : getMongoCollection env = (some (), [ConnEvent.connect]) := by
    simp [getMongoCollection, hc, hp]
  have hins : insertOne env.opOk st m env.freshId
      = .ok (st ++ [{ m with id := effectiveId m env.freshId }]) := by
    simp [insertOne, ho, hfresh]
  refine ⟨?_, ?_, ?_, ?_⟩
  · simp [createMeasurement, hcol, hins]
  · simp [createMeasurement, hcol, hins]
  · intro h; simp [effectiveId, h]
  · intro h; simp [effectiveId, h]

/-- C2 witness: the amended theorem at a concrete body with id 5 over the
empty store. -/
theorem c2_amended_body_id_used_witness :
    (createMeasurement okEnv (some { sampleBody with id := 5 }) []).res
      = HResult.response 201 RespBody.empty ∧
    (createMeasurement okEnv (some { sampleBody with id := 5 }) []).st
      = [] ++ [{ { sampleBody with id := 5 } with
          id := effectiveId { sampleBody with id := 5 } okEnv.freshId }] ∧
    (({ sampleBody with id := 5 } : Measurement).id ≠ 0 →
      effectiveId { sampleBody with id := 5 } okEnv.freshId
        = ({ sampleBody with id := 5 } : Measurement).id) ∧
    (({ sampleBody with id := 5 } : Measurement).id = 0 →
      effectiveId { sampleBody with id := 5 } okEnv.freshId = okEnv.freshId) :=
  c2_amended_body_id_used okEnv { sampleBody with id := 5 } [] rfl rfl rfl rfl

/-- C3: for a well-formed id absent from the store, PUT with a valid body
and DELETE both return 200 (not 404) and leave the stored collection
unchanged. -/
theorem c3_put_delete_absent_id_silent_noop (env : Env) (idStr : String)
    (oid : Nat) (m : Measurement) (st : List Measurement)
    (hc : env.connectOk = true) (hp : env.pingOk = true) (ho : env.opOk = true)
    (hhex : objectIDFromHex idStr = some oid)
    (habs : (st.any fun d => d.id = oid) = false) :
    (updateMeasurement env idStr (some m) st).res
      = HResult.response 200 RespBody.empty ∧
    (updateMeasurement env idStr (some m) st).st = st ∧
    (deleteMeasurement env idStr st).res = HResult.response 200 RespBody.empty ∧
    (deleteMeasurement env idStr st).st = st := by
  have hcol : getMongoCollection env = (some (), [ConnEvent.connect]) := by
    simp [getMongoCollection, hc, hp]
  have hne := mem_id_ne_of_any_eq_false habs
  have hrep : replaceOne env.opOk st oid m = .ok st := by
    simp [replaceOne, ho, habs, replaceFirst_eq_self m hne]
  have hdel : deleteOne env.opOk st oid = .ok st := by
    simp [deleteOne, ho, deleteFirst_eq_self hne]
  refine ⟨?_, ?_, ?_, ?_⟩ <;>
    simp [updateMeasurement, deleteMeasurement, hhex, hcol, hrep, hdel]

/-- C3 witness: the theorem at the well-formed absent id
`000000000000000000000001` over the empty store. -/
theorem c3_put_delete_absent_id_silent_noop_witness :
    (updateMeasurement okEnv "000000000000000000000001" (some sampleBody) []).res
      = HResult.response 200 RespBody.empty ∧
    (updateMeasurement okEnv "000000000000000000000001" (some sampleBody) []).st
      = [] ∧
    (deleteMeasurement okEnv "000000000000000000000001" []).res
      = HResult.response 200 RespBody.empty ∧
    (deleteMeasurement okEnv "000000000000000000000001" []).st = [] :=
  c3_put_delete_absent_id_silent_noop okEnv "000000000000000000000001" 1
    sampleBody [] rfl rfl rfl (by decide) rfl

/-- C4: a delivered message whose payload decodes as a Measurement-shaped
document results (when the store is reachable and the id is fresh) in
exactly one new stored document, whose cpu and ram are the payload's values
and whose timestamp is the receive time `env.now`, regardless of the
timestamp carried in the payload. -/
theorem c4_mqtt_payload_stored_with_receive_time (env : Env) (m : Measurement)
    (st : List Measurement) (hc : env.connectOk = true)
    (hp : env.pingOk = true) (ho : env.opOk = true)
    (hfresh : (st.any fun d => d.id = effectiveId m env.freshId) = false) :
    (messageHandler env (some m) st).st
      = st ++ [mqttStoredDoc m env.freshId env.now] ∧
    (messageHandler env (some m) st).st.length = st.length + 1 ∧
    (messageHandler env (some m) st).fatal = false := by
  have hcol : getMongoCollection env = (some (), [ConnEvent.connect]) := by
    simp [getMongoCollection, hc, hp]
  have heid : effectiveId { m with timestamp := env.now } env.freshId
      = effectiveId m env.freshId := rfl
  have hins : insertOne env.opOk st { m with timestamp := env.now } env.freshId
      = .ok (st ++ [mqttStoredDoc m env.freshId env.now]) := by
    simp [insertOne, ho, heid, hfresh, mqttStoredDoc]
  refine ⟨?_, ?_, ?_⟩ <;> simp [messageHandler, hcol, hins]

/-- C4 witness: a payload carrying timestamp 7 received at time 100 is
stored with timestamp 100 over the empty store. -/
theorem c4_mqtt_payload_stored_with_receive_time_witness :
    (messageHandler okEnv (some sampleBody) []).st
      = [] ++ [mqttStoredDoc sampleBody okEnv.freshId okEnv.now] ∧
    (messageHandler okEnv (some sampleBody) []).st.length
      = ([] : List Measurement).length + 1 ∧
    (messageHandler okEnv (some sampleBody) []).fatal = false :=
  c4_mqtt_payload_stored_with_receive_time okEnv sampleBody [] rfl rfl rfl rfl

/-- C5: for every id string that `ObjectIDFromHex` rejects, each of the
id-addressed handlers (GET, PUT, DELETE) returns status 400 with the
"Invalid ID" body — in particular never 500 — and touches neither the store
nor a connection. -/
theorem c5_malformed_id_yields_400 (env : Env) (idStr : String)
    (body : Option Measurement) (st : List Measurement)
    (hbad : objectIDFromHex idStr = none) :
    (getMeasurement env idStr st).res
      = HResult.response 400 (RespBody.errMsg "Invalid ID") ∧
    (updateMeasurement env idStr body st).res
      = HResult.response 400 (RespBody.errMsg "Invalid ID") ∧
    (deleteMeasurement env idStr st).res
      = HResult.response 400 (RespBody.errMsg "Invalid ID") ∧
    (getMeasurement env idStr st).st = st ∧
    (updateMeasurement env idStr body st).st = st ∧
    (deleteMeasurement env idStr st).st = st := by
  refine ⟨?_, ?_, ?_, ?_, ?_, ?_⟩ <;>
    simp [getMeasurement, updateMeasurement, deleteMeasurement, hbad]

/-- C5 witness: the theorem at the malformed id string `nope`. -/
theorem c5_malformed_id_yields_400_witness :
    (getMeasurement okEnv "nope" []).res
      = HResult.response 400 (RespBody.errMsg "Invalid ID") ∧
    (updateMeasurement okEnv "nope" none []).res
      = HResult.response 400 (RespBody.errMsg "Invalid ID") ∧
    (deleteMeasurement okEnv "nope" []).res
      = HResult.response 400 (RespBody.errMsg "Invalid ID") ∧
    (getMeasurement okEnv "nope" []).st = [] ∧
    (updateMeasurement okEnv "nope" none []).st = [] ∧
    (deleteMeasurement okEnv "nope" []).st = [] :=
  c5_malformed_id_yields_400 okEnv "nope" none [] (by decide)

/-- C6: for a well-formed id absent from the store (with the store
reachable), GET /measurements/id returns status 404 and leaves the
collection unchanged. -/
theorem c6_get_absent_id_404 (env : Env) (idStr : String) (oid : Nat)
    (st : List Measurement) (hc : env.connectOk = true)
    (hp : env.pingOk = true) (ho : env.opOk = true)
    (hhex : objectIDFromHex idStr = some oid)
    (habs : (st.any fun d => d.id = oid) = false) :
    (getMeasurement env idStr st).res = HResult.response 404 RespBody.empty ∧
    (getMeasurement env idStr st).st = st := by
  have hcol : getMongoCollection env = (some (), [ConnEvent.connect]) := by
    simp [getMongoCollection, hc, hp]
  have hfind : findOne env.opOk st oid = .ok none := by
    simp [findOne, ho, find?_id_eq_none (mem_id_ne_of_any_eq_false habs)]
  refine ⟨?_, ?_⟩ <;> simp [getMeasurement, hhex, hcol, hfind]

/-- C6 witness: the theorem at the well-formed absent id
`00000000000000000000000a` over the empty store. -/
theorem c6_get_absent_id_404_witness :
    (getMeasurement okEnv "00000000000000000000000a" []).res
      = HResult.response 404 RespBody.empty ∧
    (getMeasurement okEnv "00000000000000000000000a" []).st = [] :=
  c6_get_absent_id_404 okEnv "00000000000000000000000a" 10 [] rfl rfl rfl
    (by decide) rfl

/-- C7: a delivered message whose payload fails to decode is dropped: no
document is inserted, the collection is unchanged, no connection is touched,
the handler does not terminate the process, and the subscriber processes the
subsequent messages exactly as if the bad message had not arrived. -/
theorem c7_undecodable_payload_dropped (env : Env) (st : List Measurement)
    (rest : List MqttMsg) :
    (messageHandler env none st).st = st ∧
    (messageHandler env none st).trace = [] ∧
    (messageHandler env none st).fatal = false ∧
    runSubscriber ({ payload := none, env := env } :: rest) st
      = runSubscriber rest st := by
  refine ⟨rfl, rfl, rfl, ?_⟩
  simp [runSubscriber, messageHandler]

/-- C8, counterexample: a successful POST insert establishes its own
connection but never tears it down — its connection trace is `[connect]`
with no disconnect event, contradicting "tears that connection down on
completion" for the insert operation. -/
theorem c8_counterexample :
    (createMeasurement okEnv (some sampleBody) []).trace = [ConnEvent.connect] ∧
    ConnEvent.disconnect ∉ (createMeasurement okEnv (some sampleBody) []).trace := by
  refine ⟨rfl, ?_⟩
  decide

/-- C8 (amended): every store operation establishes its own fresh connection
(each invocation's trace begins with a `connect` of its own), but only the
list operation (`findAll` via GET /measurements) disconnects on completion;
the insert, find-by-id, replace and delete operations — and the MQTT insert
path — leave their connection open. -/
theorem c8_amended_per_op_connect_only_list_disconnects (env : Env)
    (idStr : String) (oid : Nat) (m : Measurement) (st : List Measurement)
    (hc : env.connectOk = true) (hp : env.pingOk = true)
    (hd : env.disconnectOk = true) (hhex : objectIDFromHex idStr = some oid) :
    (getMeasurements env st).trace = [ConnEvent.connect, ConnEvent.disconnect] ∧
    (createMeasurement env (some m) st).trace = [ConnEvent.connect] ∧
    (getMeasurement env idStr st).trace = [ConnEvent.connect] ∧
    (updateMeasurement env idStr (some m) st).trace = [ConnEvent.connect] ∧
    (deleteMeasurement env idStr st).trace = [ConnEvent.connect] ∧
    (messageHandler env (some m) st).trace = [ConnEvent.connect] := by
  have hcol : getMongoCollection env = (some (), [ConnEvent.connect]) := by
    simp [getMongoCollection, hc, hp]
  refine ⟨?_, ?_, ?_, ?_, ?_, ?_⟩
  · rcases hop : env.opOk with _ | _ <;> simp [getMeasurements, hc, hd, hop]
  · simp only [createMeasurement, hcol]
    rcases hins : insertOne env.opOk st m env.freshId with e | st2 <;> simp [hins]
  · simp only [getMeasurement, hhex, hcol]
    rcases hfind : findOne env.opOk st oid with e | mo
    · simp [hfind]
    · cases mo <;> simp [hfind]
  · simp only [updateMeasurement, hhex, hcol]
    rcases hrep : replaceOne env.opOk st oid m with e | st2 <;> simp [hrep]
  · simp only [deleteMeasurement, hhex, hcol]
    rcases hdel : deleteOne env.opOk st oid with e | st2 <;> simp [hdel]
  · simp only [messageHandler, hcol]
    rcases hins : insertOne env.opOk st { m with timestamp := env.now }
      env.freshId with e | st2 <;> simp [hins]

/-- C8 witness: the amended theorem in the all-success environment at the
well-formed id `000000000000000000000002`. -/
theorem c8_amended_per_op_connect_only_list_disconnects_witness :
    (getMeasurements okEnv []).trace = [ConnEvent.connect, ConnEvent.disconnect] ∧
    (createMeasurement okEnv (some sampleBody) []).trace = [ConnEvent.connect] ∧
    (getMeasurement okEnv "000000000000000000000002" []).trace
      = [ConnEvent.connect] ∧
    (updateMeasurement okEnv "000000000000000000000002" (some sampleBody) []).trace
      = [ConnEvent.connect] ∧
    (deleteMeasurement okEnv "000000000000000000000002" []).trace
      = [ConnEvent.connect] ∧
    (messageHandler okEnv (some sampleBody) []).trace = [ConnEvent.connect] :=
  c8_amended_per_op_connect_only_list_disconnects okEnv
    "000000000000000000000002" 2 sampleBody [] rfl rfl rfl (by decide)

/-- C9, counterexample: GET /measurements on a reachable empty store returns
200 whose body is the nil slice, which marshals to JSON `null` — not an
empty JSON array. -/
theorem c9_counterexample :
    (getMeasurements okEnv []).res = HResult.response 200 (RespBody.slice none) ∧
    marshalSlice none = JsonVal.null ∧
    JsonVal.null ≠ JsonVal.arrOf [] := by
  refine ⟨rfl, rfl, ?_⟩
  decide

/-- C9 (amended): GET /measurements on a reachable store returns 200 with
the slice produced by `cur.All` over exactly the stored documents; a
non-empty store marshals to the JSON array of exactly those documents, but
an empty store marshals to JSON `null` rather than an empty array. -/
theorem c9_amended_list_returns_stored_docs (env : Env) (st : List Measurement)
    (hc : env.connectOk = true) (ho : env.opOk = true)
    (hd : env.disconnectOk = true) :
    (getMeasurements env st).res = HResult.response 200 (RespBody.slice (curAll st)) ∧
    (st = [] → marshalSlice (curAll st) = JsonVal.null) ∧
    (st ≠ [] → marshalSlice (curAll st) = JsonVal.arrOf st) := by
  refine ⟨?_, ?_, ?_⟩
  · simp [getMeasurements, hc, ho, hd]
  · intro h; subst h; rfl
  · intro h
    rcases st with _ | ⟨x, xs⟩
    · exact absurd rfl h
    · simp [curAll_cons, marshalSlice]

/-- C9 witness: the amended theorem over a one-document store in the
all-success environment. -/
theorem c9_amended_list_returns_stored_docs_witness :
    (getMeasurements okEnv [sampleBody]).res
      = HResult.response 200 (RespBody.slice (curAll [sampleBody])) ∧
    ([sampleBody] = ([] : List Measurement)
      → marshalSlice (curAll [sampleBody]) = JsonVal.null) ∧
    ([sampleBody] ≠ ([] : List Measurement)
      → marshalSlice (curAll [sampleBody]) = JsonVal.arrOf [sampleBody]) :=
  c9_amended_list_returns_stored_docs okEnv [sampleBody] rfl rfl rfl

/-- C10: the POST handler stores the body's timestamp unchanged — the stored
document is the bound body itself (only its id adjusted by the store), so
its timestamp equals the body's — whereas the message-bus path stores the
receive time instead. -/
theorem c10_create_keeps_body_timestamp (env : Env) (m : Measurement)
    (st : List Measurement) (hc : env.connectOk = true)
    (hp : env.pingOk = true) (ho : env.opOk = true)
    (hfresh : (st.any fun d => d.id = effectiveId m env.freshId) = false) :
    (createMeasurement env (some m) st).st
      = st ++ [{ m with id := effectiveId m env.freshId }] ∧
    ({ m with id := effectiveId m env.freshId } : Measurement).timestamp
      = m.timestamp ∧
    (messageHandler env (some m) st).st
      = st ++ [mqttStoredDoc m env.freshId env.now] ∧
    (mqttStoredDoc m env.freshId env.now).timestamp = env.now := by
  have hcol : getMongoCollection env = (some (), [ConnEvent.connect]) := by
    simp [getMongoCollection, hc, hp]
  have hins : insertOne env.opOk st m env.freshId
      = .ok (st ++ [{ m with id := effectiveId m env.freshId }]) := by
    simp [insertOne, ho, hfresh]
  have heid : effectiveId { m with timestamp := env.now } env.freshId
      = effectiveId m env.freshId := rfl
  have hins2 : insertOne env.opOk st { m with timestamp := env.now } env.freshId
      = .ok (st ++ [mqttStoredDoc m env.freshId env.now]) := by
    simp [insertOne, ho, heid, hfresh, mqttStoredDoc]
  refine ⟨?_, rfl, ?_, rfl⟩
  · simp [createMeasurement, hcol, hins]
  · simp [messageHandler, hcol, hins2]

/-- C10 witness: a body with timestamp 7 POSTed at server time 100 is stored
with timestamp 7, while the same payload over MQTT is stored with
timestamp 100. -/
theorem c10_create_keeps_body_timestamp_witness :
    (createMeasurement okEnv (some sampleBody) []).st
      = [] ++ [{ sampleBody with id := effectiveId sampleBody okEnv.freshId }] ∧
    ({ sampleBody with id := effectiveId sampleBody okEnv.freshId } :
      Measurement).timestamp = sampleBody.timestamp ∧
    (messageHandler okEnv (some sampleBody) []).st
      = [] ++ [mqttStoredDoc sampleBody okEnv.freshId okEnv.now] ∧
    (mqttStoredDoc sampleBody okEnv.freshId okEnv.now).timestamp = okEnv.now :=
  c10_create_keeps_body_timestamp okEnv sampleBody [] rfl rfl rfl rfl
